import Mathlib

/-
Verification of the consortium relay server's update handlers, session routes,
pairing routes and RPC bridge, via a shallow embedding of the TypeScript source
(packages/consortium-server/sources/app/api/...). Store rows are Lean structures,
the store itself a record of row lists; each socket/HTTP handler becomes a pure
function from its inputs and the store state to the new store state, its callback
response and the list of events it hands to the event router. Optimistic-concurrency
handlers take two store snapshots, one for the initial read and one for the
conditional write, so a lost race with a concurrent writer is expressible; the
single-writer case instantiates both with the same state.
-/

namespace Consortium

/-- Account row (§3 of the spec, schema table Account). -/
structure Account where
  id : String
  publicKey : String
  seq : Nat
deriving DecidableEq

/-- Session row (schema table Session). Timestamps other than lastActiveAt are
not claim-relevant and omitted. -/
structure Session where
  id : String
  accountId : String
  tag : String
  seq : Nat
  metadata : String
  metadataVersion : Nat
  agentState : Option String
  agentStateVersion : Nat
  dataEncryptionKey : Option String
  active : Bool
  lastActiveAt : Int
deriving DecidableEq

/-- Wrapped ciphertext stored for a message: the code builds { t: "encrypted", c: message }. -/
structure MessageContent where
  t : String
  c : String
deriving DecidableEq

/-- SessionMessage row (schema table SessionMessage); the opaque cuid id is omitted. -/
structure SessionMessage where
  sessionId : String
  seq : Nat
  content : MessageContent
  localId : Option String
deriving DecidableEq

/-- Machine row (schema table Machine). -/
structure Machine where
  id : String
  accountId : String
  metadata : String
  metadataVersion : Nat
  daemonState : Option String
  daemonStateVersion : Nat
  dataEncryptionKey : Option String
  active : Bool
  lastActiveAt : Int
deriving DecidableEq

/-- AccountAuthRequest row (pairing request). -/
structure AccountAuthRequest where
  id : String
  publicKey : String
  response : Option String
  responseAccountId : Option String
deriving DecidableEq

/-- The relational store: one list per table. -/
structure DB where
  accounts : List Account
  sessions : List Session
  messages : List SessionMessage
  machines : List Machine
  authRequests : List AccountAuthRequest
deriving DecidableEq

/-- Conditional update over a table: every row matching the where-predicate is
rewritten by the data function (Prisma updateMany semantics). -/
def updateWhere {α : Type} (p : α → Bool) (f : α → α) (xs : List α) : List α :=
  xs.map fun x => if p x then f x else x

/-- Number of rows a where-predicate matches (the count an updateMany reports). -/
def countWhere {α : Type} (p : α → Bool) (xs : List α) : Nat :=
  (xs.filter p).length

/-- db.session.findUnique({ where: { id: sid, accountId: uid } }). -/
def sessionFindUnique (db : DB) (sid uid : String) : Option Session :=
  db.sessions.find? fun s => s.id == sid && s.accountId == uid

/-- db.session.findFirst({ where: { accountId: uid, tag } }). -/
def sessionFindByTag (db : DB) (uid tag : String) : Option Session :=
  db.sessions.find? fun s => s.accountId == uid && s.tag == tag

/-- db.machine.findFirst({ where: { accountId: uid, id: mid } }). -/
def machineFindFirst (db : DB) (uid mid : String) : Option Machine :=
  db.machines.find? fun m => m.accountId == uid && m.id == mid

/-- db.sessionMessage.findFirst({ where: { sessionId: sid, localId } }). -/
def messageFindFirst (db : DB) (sid localId : String) : Option SessionMessage :=
  db.messages.find? fun m => m.sessionId == sid && m.localId == some localId

/-- db.accountAuthRequest.findUnique({ where: { publicKey } }). -/
def authRequestFind (db : DB) (pk : String) : Option AccountAuthRequest :=
  db.authRequests.find? fun r => r.publicKey == pk

/-- Lookup of an account row by id. -/
def accountFind (db : DB) (uid : String) : Option Account :=
  db.accounts.find? fun a => a.id == uid

/-- The store after db.account.update incremented the seq of the account row. -/
def bumpAccountSeq (db : DB) (uid : String) : DB :=
  { db with accounts :=
      updateWhere (fun x => x.id == uid) (fun x => { x with seq := x.seq + 1 }) db.accounts }

/-- The store after db.session.update incremented the seq of the session row. -/
def bumpSessionSeq (db : DB) (sid : String) : DB :=
  { db with sessions :=
      updateWhere (fun x => x.id == sid) (fun x => { x with seq := x.seq + 1 }) db.sessions }

/-- Embeds allocateUserSeq (app/api/types.ts): db.account.update with
data seq increment 1, returning the post-increment seq. Prisma update throws when no
row matches the where clause; the throw, caught by each caller's try/catch, is
modelled as none. -/
def allocateUserSeq (db : DB) (accountId : String) : Option (DB × Nat) :=
  match accountFind db accountId with
  | some a => some (bumpAccountSeq db accountId, a.seq + 1)
  | none => none

/-- Embeds allocateSessionSeq (app/api/types.ts): db.session.update with
data seq increment 1, returning the post-increment seq; a missing row throws,
modelled as none. -/
def allocateSessionSeq (db : DB) (sessionId : String) : Option (DB × Nat) :=
  match db.sessions.find? (fun s => s.id == sessionId) with
  | some s => some (bumpSessionSeq db sessionId, s.seq + 1)
  | none => none

/-- Recipient filters of the event router (§4.3). -/
inductive RecipientFilter where
  | allInterestedInSession (sessionId : String)
  | userScopedOnly
  | machineScopedOnly (machineId : String)
  | allUserAuthenticated
deriving DecidableEq

/-- Body of a persistent update event, as built by the buildXxxUpdate helpers the
handlers call; the 12-character random payload id is not claim-relevant and omitted. -/
inductive UpdateBody where
  | newSession (sessionId : String)
  | updateSession (sessionId : String) (metadata : Option (String × Nat))
      (agentState : Option (Option String × Nat))
  | deleteSession (sessionId : String)
  | newMessage (sessionId : String) (msgSeq : Nat) (content : MessageContent)
      (localId : Option String)
  | newMachine (machineId : String)
  | updateMachine (machineId : String) (metadata : Option (String × Nat))
      (daemonState : Option (String × Nat))
deriving DecidableEq

/-- Body of an ephemeral presence event. -/
inductive EphemeralBody where
  | activity (sessionId : String) (active : Bool) (activeAt : Int) (thinking : Bool)
  | machineActivity (machineId : String) (active : Bool) (activeAt : Int)
deriving DecidableEq

/-- Payload handed to the event router: updates carry the allocated account seq,
ephemerals carry none. -/
inductive EventPayload where
  | update (seq : Nat) (body : UpdateBody)
  | ephemeral (body : EphemeralBody)
deriving DecidableEq

/-- One eventRouter.emitUpdate / emitEphemeral call, with its recipient filter and
optional skipped sender connection (connections are identified by a Nat id). -/
structure Emit where
  userId : String
  payload : EventPayload
  recipientFilter : RecipientFilter
  skipSenderConnection : Option Nat
deriving DecidableEq

/-- Scope of a live connection. -/
inductive ConnectionType where
  | userScoped
  | sessionScoped (sessionId : String)
  | machineScoped (machineId : String)
deriving DecidableEq

/-- A live connection registered with the event router. -/
structure Connection where
  connId : Nat
  connectionType : ConnectionType
deriving DecidableEq

/-- Embeds EventRouter.shouldSendToConnection (app/api/types.ts): whether a recipient
filter lets an event reach a connection of the given scope. -/
def shouldSendToConnection (connection : ConnectionType) (filter : RecipientFilter) :
    Bool :=
  match filter with
  | .allInterestedInSession sid =>
    match connection with
    | .sessionScoped s => s == sid
    | .machineScoped _ => false
    | .userScoped => true
  | .userScopedOnly =>
    match connection with
    | .userScoped => true
    | .sessionScoped _ => false
    | .machineScoped _ => false
  | .machineScopedOnly mid =>
    match connection with
    | .userScoped => true
    | .machineScoped m => m == mid
    | .sessionScoped _ => false
  | .allUserAuthenticated => true

/-- Embeds the loop of EventRouter.emit (app/api/types.ts): among the emitting user's
registered connections, the sender connection (when given) is skipped, connections
the filter rejects are skipped, and the payload is emitted on the rest. -/
def deliverTo (conns : List Connection) (e : Emit) : List Connection :=
  conns.filter fun c =>
    !(e.skipSenderConnection == some c.connId)
      && shouldSendToConnection c.connectionType e.recipientFilter

/-- Callback shape shared by the four optimistic-concurrency update frames: result
error, version-mismatch carrying a version and a stored value, or success carrying
the new version and value. Machine-side extra message strings are dropped; a value
of none models a JS null or undefined field. -/
inductive OCUResult where
  | error
  | versionMismatch (version : Nat) (value : Option String)
  | success (version : Nat) (value : Option String)
deriving DecidableEq

/-- Embeds the update-metadata handler of sessionUpdateHandler (rpcHandler.ts).
dbR is the store state at the initial findUnique, dbW the state at the conditional
updateMany; a single writer passes the same state twice. The returned triple is the
store after the handler, the callback response (none when the code returns without
calling it) and the emitted events. -/
def sessionUpdateMetadata (uid sid metadata : String) (expectedVersion : Nat)
    (dbR dbW : DB) : DB × Option OCUResult × List Emit :=
  if sid = "" then (dbW, some .error, [])
  else
    match sessionFindUnique dbR sid uid with
    | none => (dbW, none, [])
    | some session =>
      if session.metadataVersion ≠ expectedVersion then
        (dbW, some (.versionMismatch session.metadataVersion (some session.metadata)), [])
      else
        let p : Session → Bool := fun x => x.id == sid && x.metadataVersion == expectedVersion
        let upd := updateWhere p
          (fun x => { x with metadata := metadata, metadataVersion := expectedVersion + 1 })
          dbW.sessions
        let db1 : DB := { dbW with sessions := upd }
        if countWhere p dbW.sessions = 0 then
          (db1, some (.versionMismatch session.metadataVersion (some session.metadata)), [])
        else
          match allocateUserSeq db1 uid with
          | none => (db1, some .error, [])
          | some r =>
            (r.1, some (.success (expectedVersion + 1) (some metadata)),
             [{ userId := uid,
                payload := .update r.2 (.updateSession sid (some (metadata, expectedVersion + 1)) none),
                recipientFilter := .allInterestedInSession sid,
                skipSenderConnection := none }])

/-- Embeds the update-state handler of sessionUpdateHandler (rpcHandler.ts); the
agentState argument is a string or null. Same snapshot convention as
sessionUpdateMetadata. -/
def sessionUpdateState (uid sid : String) (agentState : Option String) (expectedVersion : Nat)
    (dbR dbW : DB) : DB × Option OCUResult × List Emit :=
  if sid = "" then (dbW, some .error, [])
  else
    match sessionFindUnique dbR sid uid with
    | none => (dbW, some .error, [])
    | some session =>
      if session.agentStateVersion ≠ expectedVersion then
        (dbW, some (.versionMismatch session.agentStateVersion session.agentState), [])
      else
        let p : Session → Bool := fun x => x.id == sid && x.agentStateVersion == expectedVersion
        let upd := updateWhere p
          (fun x => { x with agentState := agentState, agentStateVersion := expectedVersion + 1 })
          dbW.sessions
        let db1 : DB := { dbW with sessions := upd }
        if countWhere p dbW.sessions = 0 then
          (db1, some (.versionMismatch session.agentStateVersion session.agentState), [])
        else
          match allocateUserSeq db1 uid with
          | none => (db1, some .error, [])
          | some r =>
            (r.1, some (.success (expectedVersion + 1) agentState),
             [{ userId := uid,
                payload := .update r.2 (.updateSession sid none (some (agentState, expectedVersion + 1))),
                recipientFilter := .allInterestedInSession sid,
                skipSenderConnection := none }])

/-- Embeds the machine-update-metadata handler (machineUpdateHandler.ts). On a
zero-count conditional write the code re-reads the row and answers with
current?.metadataVersion || 0 and current?.metadata. -/
def machineUpdateMetadata (uid mid metadata : String) (expectedVersion : Nat)
    (dbR dbW : DB) : DB × Option OCUResult × List Emit :=
  if mid = "" then (dbW, some .error, [])
  else
    match machineFindFirst dbR uid mid with
    | none => (dbW, some .error, [])
    | some machine =>
      if machine.metadataVersion ≠ expectedVersion then
        (dbW, some (.versionMismatch machine.metadataVersion (some machine.metadata)), [])
      else
        let p : Machine → Bool := fun x =>
          x.accountId == uid && x.id == mid && x.metadataVersion == expectedVersion
        let upd := updateWhere p
          (fun x => { x with metadata := metadata, metadataVersion := expectedVersion + 1 })
          dbW.machines
        let db1 : DB := { dbW with machines := upd }
        if countWhere p dbW.machines = 0 then
          match machineFindFirst db1 uid mid with
          | none => (db1, some (.versionMismatch 0 none), [])
          | some current =>
            (db1, some (.versionMismatch current.metadataVersion (some current.metadata)), [])
        else
          match allocateUserSeq db1 uid with
          | none => (db1, some .error, [])
          | some r =>
            (r.1, some (.success (expectedVersion + 1) (some metadata)),
             [{ userId := uid,
                payload := .update r.2 (.updateMachine mid (some (metadata, expectedVersion + 1)) none),
                recipientFilter := .machineScopedOnly mid,
                skipSenderConnection := none }])

/-- Embeds the machine-update-state handler (machineUpdateHandler.ts). The accepted
conditional write additionally sets active to true and lastActiveAt to the current
time; now is the server clock at the write. -/
def machineUpdateState (uid mid daemonState : String) (expectedVersion : Nat) (now : Int)
    (dbR dbW : DB) : DB × Option OCUResult × List Emit :=
  if mid = "" then (dbW, some .error, [])
  else
    match machineFindFirst dbR uid mid with
    | none => (dbW, some .error, [])
    | some machine =>
      if machine.daemonStateVersion ≠ expectedVersion then
        (dbW, some (.versionMismatch machine.daemonStateVersion machine.daemonState), [])
      else
        let p : Machine → Bool := fun x =>
          x.accountId == uid && x.id == mid && x.daemonStateVersion == expectedVersion
        let upd := updateWhere p
          (fun x => { x with daemonState := some daemonState,
                             daemonStateVersion := expectedVersion + 1,
                             active := true, lastActiveAt := now })
          dbW.machines
        let db1 : DB := { dbW with machines := upd }
        if countWhere p dbW.machines = 0 then
          match machineFindFirst db1 uid mid with
          | none => (db1, some (.versionMismatch 0 none), [])
          | some current =>
            (db1, some (.versionMismatch current.daemonStateVersion current.daemonState), [])
        else
          match allocateUserSeq db1 uid with
          | none => (db1, some .error, [])
          | some r =>
            (r.1, some (.success (expectedVersion + 1) (some daemonState)),
             [{ userId := uid,
                payload := .update r.2 (.updateMachine mid none (some (daemonState, expectedVersion + 1))),
                recipientFilter := .machineScopedOnly mid,
                skipSenderConnection := none }])

/-- Embeds the session-alive handler (rpcHandler.ts): validate, clamp a future time
to now, ignore a time older than ten minutes, verify ownership, set lastActiveAt and
active on the row, emit a user-scoped activity ephemeral. -/
def sessionAlive (uid sid : String) (time : Int) (thinking : Bool) (now : Int)
    (db : DB) : DB × List Emit :=
  if sid = "" then (db, [])
  else
    let t := if time > now then now else time
    if t < now - 1000 * 60 * 10 then (db, [])
    else
      match sessionFindUnique db sid uid with
      | none => (db, [])
      | some _ =>
        let upd := updateWhere (fun x => x.id == sid)
          (fun x => { x with lastActiveAt := t, active := true }) db.sessions
        ({ db with sessions := upd },
         [{ userId := uid, payload := .ephemeral (.activity sid true t thinking),
            recipientFilter := .userScopedOnly, skipSenderConnection := none }])

/-- Embeds the session-end handler (rpcHandler.ts): same clamping as session-alive
(and no check that sid is non-empty), sets active to false. -/
def sessionEnd (uid sid : String) (time now : Int) (db : DB) : DB × List Emit :=
  let t := if time > now then now else time
  if t < now - 1000 * 60 * 10 then (db, [])
  else
    match sessionFindUnique db sid uid with
    | none => (db, [])
    | some _ =>
      let upd := updateWhere (fun x => x.id == sid)
        (fun x => { x with lastActiveAt := t, active := false }) db.sessions
      ({ db with sessions := upd },
       [{ userId := uid, payload := .ephemeral (.activity sid false t false),
          recipientFilter := .userScopedOnly, skipSenderConnection := none }])

/-- Embeds the machine-alive handler (machineUpdateHandler.ts). -/
def machineAlive (uid mid : String) (time now : Int) (db : DB) : DB × List Emit :=
  if mid = "" then (db, [])
  else
    let t := if time > now then now else time
    if t < now - 1000 * 60 * 10 then (db, [])
    else
      match machineFindFirst db uid mid with
      | none => (db, [])
      | some _ =>
        let upd := updateWhere (fun x => x.id == mid)
          (fun x => { x with lastActiveAt := t, active := true }) db.machines
        ({ db with machines := upd },
         [{ userId := uid, payload := .ephemeral (.machineActivity mid true t),
            recipientFilter := .userScopedOnly, skipSenderConnection := none }])

/-- Shared tail of the message handler: db.sessionMessage.create followed by the
new-message emit with skipSenderConnection set to the sending connection. -/
def insertMessageAndEmit (uid sid : String) (msgContent : MessageContent)
    (updSeq msgSeq : Nat) (localId : Option String) (conn : Nat) (db : DB) :
    DB × List Emit :=
  let msg : SessionMessage :=
    { sessionId := sid, seq := msgSeq, content := msgContent, localId := localId }
  ({ db with messages := db.messages ++ [msg] },
   [{ userId := uid, payload := .update updSeq (.newMessage sid msgSeq msgContent localId),
      recipientFilter := .allInterestedInSession sid, skipSenderConnection := some conn }])

/-- Embeds the message handler (rpcHandler.ts). The source allocates the account seq
and the session seq before the duplicate-localId check, so a dropped duplicate still
consumes both counters. conn identifies the sending connection. An allocator throw
lands in the handler's catch block, which only logs (the emit-only handler swallows);
writes made before the throw persist, as the handler runs in no transaction. -/
def onMessage (uid sid messageText : String) (localId : Option String) (conn : Nat)
    (db : DB) : DB × List Emit :=
  match sessionFindUnique db sid uid with
  | none => (db, [])
  | some _ =>
    let msgContent : MessageContent := { t := "encrypted", c := messageText }
    match allocateUserSeq db uid with
    | none => (db, [])
    | some ra =>
      match allocateSessionSeq ra.1 sid with
      | none => (ra.1, [])
      | some rb =>
        match localId with
        | some l =>
          match messageFindFirst rb.1 sid l with
          | some _ => (rb.1, [])
          | none => insertMessageAndEmit uid sid msgContent ra.2 rb.2 (some l) conn rb.1
        | none => insertMessageAndEmit uid sid msgContent ra.2 rb.2 none conn rb.1

/-- Modelled from the spec (schema defaults only): db.session.create in the POST
/v1/sessions route passes neither metadataVersion nor agentState nor agentStateVersion,
so the created row carries the Prisma schema defaults, and the schema file is not under
src/. Per the data model of §3 (metadataVersion ≥ 1, agentStateVersion ≥ 0 with no
agent state stored, per-session seq starting at 0): metadataVersion 1, agentState null,
agentStateVersion 0, seq 0, active false. -/
def sessionCreateRow (uid tag metadata : String) (dek : Option String) (newId : String) :
    Session :=
  { id := newId, accountId := uid, tag := tag, seq := 0, metadata := metadata,
    metadataVersion := 1, agentState := none, agentStateVersion := 0,
    dataEncryptionKey := dek, active := false, lastActiveAt := 0 }

/-- Embeds the POST /v1/sessions route (sessionRoutes). The route destructures only
tag, metadata and dataEncryptionKey from the body; the body's agentState field is
accepted by the schema but never read, which the unused argument mirrors. newId is
the cuid the store assigns to a created row. Returns the new store state, the session
sent in the reply (none when the route throws: the route has no try/catch, so an
allocator throw becomes a 500 with nothing created), and the emitted events. -/
def postSessions (uid tag metadata : String) (_bodyAgentState : Option String)
    (dek : Option String) (newId : String) (db : DB) : DB × Option Session × List Emit :=
  match sessionFindByTag db uid tag with
  | some session => (db, some session, [])
  | none =>
    match allocateUserSeq db uid with
    | none => (db, none, [])
    | some r =>
      let newSession := sessionCreateRow uid tag metadata dek newId
      ({ r.1 with sessions := r.1.sessions ++ [newSession] }, some newSession,
       [{ userId := uid, payload := .update r.2 (.newSession newId),
          recipientFilter := .userScopedOnly, skipSenderConnection := none }])

/-- Token issued by AuthModule.createToken (part of the auth module in src): the
payload binds the account id ({ user: userId }); the privacy-kit signature is opaque
and not modelled. -/
structure AuthToken where
  user : String
deriving DecidableEq

/-- Embeds AuthModule.createToken's payload construction. -/
def createToken (uid : String) : AuthToken := { user := uid }

/-- JavaScript truthiness of a nullable string: null, undefined and the empty string
are falsy. The pairing routes test stored columns with plain truthiness. -/
def jsTruthyStr : Option String → Bool
  | none => false
  | some s => !(s == "")

/-- Reply of POST /v1/auth/account/request. -/
inductive PollResult where
  | invalidKey
  | requested
  | authorized (token : AuthToken) (response : String)
deriving DecidableEq

/-- Embeds the POST /v1/auth/account/request route (authRoutes.ts): length-check the
key, upsert the pairing request, and answer authorized exactly when the stored
response and responseAccountId are both truthy. pkLen is the byte length of the
decoded key; newId the cuid for a created row. -/
def postAccountRequest (pkLen : Nat) (pkHex newId : String) (db : DB) : DB × PollResult :=
  if pkLen ≠ 32 then (db, .invalidKey)
  else
    let up : DB × AccountAuthRequest :=
      match authRequestFind db pkHex with
      | some r => (db, r)
      | none =>
        let r : AccountAuthRequest :=
          { id := newId, publicKey := pkHex, response := none, responseAccountId := none }
        ({ db with authRequests := db.authRequests ++ [r] }, r)
    if jsTruthyStr up.2.response && jsTruthyStr up.2.responseAccountId then
      (up.1, .authorized (createToken (up.2.responseAccountId.getD ""))
        (up.2.response.getD ""))
    else (up.1, .requested)

/-- Reply of POST /v1/auth/account/response. -/
inductive RespondResult where
  | invalidKey
  | notFound
  | success
deriving DecidableEq

/-- Embeds the POST /v1/auth/account/response route (authRoutes.ts): look up the
pairing request; write response and responseAccountId only when the stored response
is not truthy; reply success whether or not a write happened. -/
def postAccountResponse (accountId : String) (pkLen : Nat) (pkHex response : String)
    (db : DB) : DB × RespondResult :=
  if pkLen ≠ 32 then (db, .invalidKey)
  else
    match authRequestFind db pkHex with
    | none => (db, .notFound)
    | some ar =>
      if jsTruthyStr ar.response then (db, .success)
      else
        let upd := updateWhere (fun r => r.id == ar.id)
          (fun r => { r with response := some response, responseAccountId := some accountId })
          db.authRequests
        ({ db with authRequests := upd }, .success)

/-- Outcome of an rpc-call frame: either the callback fires once with ok/error, or an
rpc-request is forwarded to the registered socket (whose ack or timeout later resolves
the callback). -/
inductive RpcCallOutcome where
  | reply (ok : Bool) (error : Option String)
  | forwarded (target : Nat)
deriving DecidableEq

/-- rpcListeners.get(method): the per-user method registration map, as an association
list from method name to socket id. -/
def lookupMethod (listeners : List (String × Nat)) (method : String) : Option Nat :=
  (listeners.find? fun q => q.1 == method).map fun q => q.2

/-- Embeds the rpc-call handler (rpcHandler.ts): socketId is the calling socket,
connected the set of currently connected socket ids. -/
def rpcCall (socketId : Nat) (method : String) (listeners : List (String × Nat))
    (connected : List Nat) : RpcCallOutcome :=
  if method = "" then .reply false (some "Invalid parameters: method is required")
  else
    match lookupMethod listeners method with
    | none => .reply false (some "RPC method not available")
    | some target =>
      if target ∉ connected then .reply false (some "RPC method not available")
      else if target = socketId then .reply false (some "Cannot call RPC on the same socket")
      else .forwarded target

/-- Membership in a conditional update: every element of the result is an unmatched
original row or the image of a matched row. -/
theorem mem_updateWhere {α : Type} {p : α → Bool} {f : α → α} {xs : List α} {x : α}
    (h : x ∈ updateWhere p f xs) :
    (∃ y ∈ xs, p y = false ∧ x = y) ∨ (∃ y ∈ xs, p y = true ∧ x = f y) := by
  unfold updateWhere at h
  rcases List.mem_map.mp h with ⟨y, hy, hgy⟩
  by_cases hp : p y = true
  · exact Or.inr ⟨y, hy, hp, by rw [← hgy, if_pos hp]⟩
  · have hpf : p y = false := by simpa using hp
    exact Or.inl ⟨y, hy, hpf, by rw [← hgy, if_neg hp]⟩

/-- A zero row count means no row matches the where-predicate. -/
theorem countWhere_eq_zero {α : Type} {p : α → Bool} :
    ∀ {xs : List α}, countWhere p xs = 0 → ∀ x ∈ xs, p x = false := by
  intro xs
  induction xs with
  | nil => intro _ x hx; cases hx
  | cons a l ih =>
    intro h x hx
    by_cases hp : p a = true
    · exact absurd h (by simp [countWhere, List.filter_cons, hp])
    · have hpa : p a = false := by simpa using hp
      rcases List.mem_cons.mp hx with rfl | hxl
      · exact hpa
      · exact ih (by simpa [countWhere, List.filter_cons, hpa] using h) x hxl

/-- A nonzero row count exhibits a matching row. -/
theorem exists_true_of_countWhere_ne_zero {α : Type} {p : α → Bool} :
    ∀ {xs : List α}, countWhere p xs ≠ 0 → ∃ x ∈ xs, p x = true := by
  intro xs
  induction xs with
  | nil => intro h; exact absurd rfl h
  | cons a l ih =>
    intro h
    by_cases hp : p a = true
    · exact ⟨a, List.mem_cons_self a l, hp⟩
    · have hpa : p a = false := by simpa using hp
      rcases ih (fun hz => h (by simpa [countWhere, List.filter_cons, hpa] using hz))
        with ⟨x, hx, hpx⟩
      exact ⟨x, List.mem_cons_of_mem a hx, hpx⟩

/-- A conditional update matching no row leaves the table unchanged. -/
theorem updateWhere_of_all_false {α : Type} {p : α → Bool} {f : α → α} :
    ∀ {xs : List α}, (∀ x ∈ xs, p x = false) → updateWhere p f xs = xs := by
  intro xs
  induction xs with
  | nil => intro _; rfl
  | cons a l ih =>
    intro h
    have ha := h a (List.mem_cons_self a l)
    have hl := ih fun x hx => h x (List.mem_cons_of_mem a hx)
    simp only [updateWhere, List.map_cons] at hl ⊢
    rw [if_neg (by simp [ha]), hl]

/-- Two rows of a key-unique table with the same key are the same row. -/
theorem mem_eq_of_pairwise_key {α : Type} {β : Type} {k : α → β} :
    ∀ {xs : List α}, xs.Pairwise (fun a b => k a ≠ k b) →
      ∀ {x y : α}, x ∈ xs → y ∈ xs → k x = k y → x = y := by
  intro xs
  induction xs with
  | nil => intro _ x y hx; cases hx
  | cons a l ih =>
    intro hp x y hx hy hk
    rcases List.pairwise_cons.mp hp with ⟨ha, hl⟩
    rcases List.mem_cons.mp hx with rfl | hxl
    · rcases List.mem_cons.mp hy with rfl | hyl
      · rfl
      · exact absurd hk (ha y hyl)
    · rcases List.mem_cons.mp hy with rfl | hyl
      · exact absurd hk.symm (ha x hxl)
      · exact ih hl hxl hyl hk

/-- find? on an appended list scans the left part first. -/
theorem find?_append {α : Type} (p : α → Bool) :
    ∀ (l1 l2 : List α), List.find? p (l1 ++ l2) =
      match List.find? p l1 with
      | some x => some x
      | none => List.find? p l2 := by
  intro l1 l2
  induction l1 with
  | nil => rfl
  | cons a l ih =>
    by_cases hp : p a = true
    · simp [List.find?_cons_of_pos _ hp, hp]
    · rw [List.cons_append, List.find?_cons_of_neg _ hp, ih, List.find?_cons_of_neg _ hp]

/-- find? commutes with a map that preserves the predicate. -/
theorem find?_map_pres {α : Type} {p : α → Bool} {g : α → α}
    (hpres : ∀ x, p (g x) = p x) :
    ∀ (xs : List α), List.find? p (xs.map g) = (List.find? p xs).map g := by
  intro xs
  induction xs with
  | nil => rfl
  | cons a l ih =>
    by_cases hp : p a = true
    · rw [List.map_cons, List.find?_cons_of_pos _ (by rw [hpres]; exact hp),
        List.find?_cons_of_pos _ hp]
      rfl
    · rw [List.map_cons, List.find?_cons_of_neg _ (by rw [hpres]; exact hp),
        List.find?_cons_of_neg _ hp, ih]

/-- Row counts add over appended tables. -/
theorem countWhere_append {α : Type} (p : α → Bool) (l1 l2 : List α) :
    countWhere p (l1 ++ l2) = countWhere p l1 + countWhere p l2 := by
  simp [countWhere, List.filter_append]

/-- A successful allocateUserSeq returns exactly the seq-bumped store. -/
theorem allocateUserSeq_some {db : DB} {uid : String} {r : DB × Nat}
    (h : allocateUserSeq db uid = some r) : r.1 = bumpAccountSeq db uid := by
  unfold allocateUserSeq at h
  cases hf : accountFind db uid with
  | none => rw [hf] at h; cases h
  | some a => rw [hf] at h; cases h; rfl

/-- A successful allocateSessionSeq returns exactly the seq-bumped store. -/
theorem allocateSessionSeq_some {db : DB} {sid : String} {r : DB × Nat}
    (h : allocateSessionSeq db sid = some r) : r.1 = bumpSessionSeq db sid := by
  unfold allocateSessionSeq at h
  cases hf : db.sessions.find? (fun s => s.id == sid) with
  | none => rw [hf] at h; cases h
  | some s => rw [hf] at h; cases h; rfl

/-- A member satisfying the predicate makes find? succeed. -/
theorem exists_find?_eq_some_of_mem {α : Type} {p : α → Bool} :
    ∀ {xs : List α} {x : α}, x ∈ xs → p x = true → ∃ y, List.find? p xs = some y := by
  intro xs
  induction xs with
  | nil => intro x hx; cases hx
  | cons b l ih =>
    intro x hx hp
    by_cases hb : p b = true
    · exact ⟨b, List.find?_cons_of_pos _ hb⟩
    · rcases List.mem_cons.mp hx with rfl | hxl
      · exact absurd hp hb
      · rcases ih hxl hp with ⟨y, hy⟩
        exact ⟨y, by rw [List.find?_cons_of_neg _ hb, hy]⟩

/-- A conditional update whose data function preserves a search predicate does not
change whether a find? succeeds. -/
theorem find?_isSome_updateWhere {α : Type} {q p : α → Bool} {f : α → α}
    (hpres : ∀ x, q (f x) = q x) (xs : List α) :
    (List.find? q (updateWhere p f xs)).isSome = (List.find? q xs).isSome := by
  unfold updateWhere
  rw [find?_map_pres ?hp]
  · cases List.find? q xs <;> rfl
  case hp =>
    intro x
    by_cases hc : p x = true
    · rw [if_pos hc, hpres]
    · rw [if_neg hc]

/-- The seq bump of a session-seq allocation does not change which session a
findUnique locates (it alters no id or accountId). -/
theorem sessionFindUnique_bumpSessionSeq_isSome (db : DB) (sid2 sid uid : String) :
    (sessionFindUnique (bumpSessionSeq db sid2) sid uid).isSome
      = (sessionFindUnique db sid uid).isSome := by
  exact find?_isSome_updateWhere
    (q := fun s => s.id == sid && s.accountId == uid)
    (p := fun x => x.id == sid2)
    (f := fun x => { x with seq := x.seq + 1 })
    (fun x => rfl) db.sessions

/-- The seq bump of an account-seq allocation does not change which account a
lookup by id locates. -/
theorem accountFind_bumpAccountSeq_isSome (db : DB) (uid2 uid : String) :
    (accountFind (bumpAccountSeq db uid2) uid).isSome = (accountFind db uid).isSome := by
  exact find?_isSome_updateWhere
    (q := fun a => a.id == uid)
    (p := fun x => x.id == uid2)
    (f := fun x => { x with seq := x.seq + 1 })
    (fun x => rfl) db.accounts

/-- The session-seq bump also keeps any find? by id over the sessions table
succeeding. -/
theorem find?_id_bumpSessionSeq_isSome (db : DB) (sid2 sid : String) :
    (List.find? (fun s => s.id == sid) (bumpSessionSeq db sid2).sessions).isSome
      = (List.find? (fun s => s.id == sid) db.sessions).isSome := by
  exact find?_isSome_updateWhere
    (q := fun s => s.id == sid)
    (p := fun x => x.id == sid2)
    (f := fun x => { x with seq := x.seq + 1 })
    (fun x => rfl) db.sessions

/-- Fixture for the optimistic-concurrency race: the row as the handler first read it. -/
def raceSessionRead : Session :=
  { id := "s1", accountId := "u", tag := "t", seq := 0, metadata := "a",
    metadataVersion := 1, agentState := some "sa", agentStateVersion := 1,
    dataEncryptionKey := none, active := false, lastActiveAt := 0 }

/-- The same row after a concurrent writer bumped metadata to version 2. -/
def raceSessionWrite : Session :=
  { raceSessionRead with metadata := "b", metadataVersion := 2 }

/-- Fixture machine row as first read. -/
def raceMachineRead : Machine :=
  { id := "m1", accountId := "u", metadata := "a", metadataVersion := 1,
    daemonState := none, daemonStateVersion := 0, dataEncryptionKey := none,
    active := false, lastActiveAt := 0 }

/-- The machine row after a concurrent writer bumped metadata to version 2. -/
def raceMachineWrite : Machine :=
  { raceMachineRead with metadata := "b", metadataVersion := 2 }

/-- Store as of the initial read. -/
def raceDbRead : DB :=
  { accounts := [{ id := "u", publicKey := "pk", seq := 0 }],
    sessions := [raceSessionRead], messages := [],
    machines := [raceMachineRead], authRequests := [] }

/-- Store as of the conditional write, after the concurrent writer committed. -/
def raceDbWrite : DB :=
  { raceDbRead with sessions := [raceSessionWrite], machines := [raceMachineWrite] }

/-- Claim C1, counterexample: in the zero-rows race the update-metadata handler calls
back version-mismatch with the version and metadata of the initial read (version 1,
metadata "a") and not with the latest stored values (version 2, metadata "b"): the
session handlers perform no re-read. -/
theorem C1_counterexample :
    (sessionUpdateMetadata "u" "s1" "new" 1 raceDbRead raceDbWrite).2.1
        = some (.versionMismatch 1 (some "a"))
  ∧ (sessionFindUnique raceDbWrite "s1" "u").map (fun s => (s.metadataVersion, s.metadata))
        = some (2, "b")
  ∧ (sessionUpdateMetadata "u" "s1" "new" 1 raceDbRead raceDbWrite).2.1
        ≠ some (.versionMismatch 2 (some "b")) := by
  refine ⟨by decide, by decide, by decide⟩

/-- Claim C1 (amended): on a conditional write affecting zero rows,
machine-update-metadata and machine-update-state re-read the row and call back
version-mismatch with the latest stored version and value, while update-metadata and
update-state call back version-mismatch with the version and value from the initial
read (the version being exactly the caller's expectedVersion), without re-reading. -/
theorem C1_amended_thm :
    (∀ (uid sid md : String) (e : Nat) (dbR dbW : DB) (s : Session),
        sid ≠ "" → sessionFindUnique dbR sid uid = some s → s.metadataVersion = e →
        countWhere (fun x => x.id == sid && x.metadataVersion == e) dbW.sessions = 0 →
        (sessionUpdateMetadata uid sid md e dbR dbW).2.1
          = some (.versionMismatch e (some s.metadata)))
  ∧ (∀ (uid sid : String) (ast : Option String) (e : Nat) (dbR dbW : DB) (s : Session),
        sid ≠ "" → sessionFindUnique dbR sid uid = some s → s.agentStateVersion = e →
        countWhere (fun x => x.id == sid && x.agentStateVersion == e) dbW.sessions = 0 →
        (sessionUpdateState uid sid ast e dbR dbW).2.1
          = some (.versionMismatch e s.agentState))
  ∧ (∀ (uid mid md : String) (e : Nat) (dbR dbW : DB) (m : Machine),
        mid ≠ "" → machineFindFirst dbR uid mid = some m → m.metadataVersion = e →
        countWhere (fun x => x.accountId == uid && x.id == mid && x.metadataVersion == e)
          dbW.machines = 0 →
        (machineUpdateMetadata uid mid md e dbR dbW).2.1
          = some (match machineFindFirst dbW uid mid with
                  | none => .versionMismatch 0 none
                  | some current =>
                    .versionMismatch current.metadataVersion (some current.metadata)))
  ∧ (∀ (uid mid ds : String) (e : Nat) (now : Int) (dbR dbW : DB) (m : Machine),
        mid ≠ "" → machineFindFirst dbR uid mid = some m → m.daemonStateVersion = e →
        countWhere (fun x => x.accountId == uid && x.id == mid && x.daemonStateVersion == e)
          dbW.machines = 0 →
        (machineUpdateState uid mid ds e now dbR dbW).2.1
          = some (match machineFindFirst dbW uid mid with
                  | none => .versionMismatch 0 none
                  | some current =>
                    .versionMismatch current.daemonStateVersion current.daemonState)) := by
  refine ⟨?_, ?_, ?_, ?_⟩
  · intro uid sid md e dbR dbW s hsid hfind hver hcount
    simp only [sessionUpdateMetadata, if_neg hsid, hfind, hver]
    simp [hcount]
  · intro uid sid ast e dbR dbW s hsid hfind hver hcount
    simp only [sessionUpdateState, if_neg hsid, hfind, hver]
    simp [hcount]
  · intro uid mid md e dbR dbW m hmid hfind hver hcount
    have hupd := updateWhere_of_all_false
      (f := fun x => { x with metadata := md, metadataVersion := e + 1 })
      (countWhere_eq_zero hcount)
    simp only [machineUpdateMetadata, if_neg hmid, hfind, hver]
    simp only [machineFindFirst, hupd, hcount, if_pos]
    cases hF : List.find? (fun x => x.accountId == uid && x.id == mid) dbW.machines <;>
      simp [hF]
  · intro uid mid ds e now dbR dbW m hmid hfind hver hcount
    have hupd := updateWhere_of_all_false
      (f := fun x => { x with daemonState := some ds, daemonStateVersion := e + 1,
                              active := true, lastActiveAt := now })
      (countWhere_eq_zero hcount)
    simp only [machineUpdateState, if_neg hmid, hfind, hver]
    simp only [machineFindFirst, hupd, hcount, if_pos]
    cases hF : List.find? (fun x => x.accountId == uid && x.id == mid) dbW.machines <;>
      simp [hF]

/-- Claim C1 witness: the amended theorem applied to the race fixture, for one session
frame (stale values, version 1 / "a") and one machine frame (re-read values,
version 2 / "b"). -/
theorem C1_amended_witness :
    (sessionUpdateMetadata "u" "s1" "new" 1 raceDbRead raceDbWrite).2.1
        = some (.versionMismatch 1 (some "a"))
  ∧ (machineUpdateMetadata "u" "m1" "new" 1 raceDbRead raceDbWrite).2.1
        = some (.versionMismatch 2 (some "b")) := by
  constructor
  · exact C1_amended_thm.1 "u" "s1" "new" 1 raceDbRead raceDbWrite raceSessionRead
      (by decide) (by decide) (by decide) (by decide)
  · have h := C1_amended_thm.2.2.1 "u" "m1" "new" 1 raceDbRead raceDbWrite raceMachineRead
      (by decide) (by decide) (by decide) (by decide)
    rw [h]
    decide

/-- A store with no rows at all. -/
def emptyDB : DB :=
  { accounts := [], sessions := [], messages := [], machines := [], authRequests := [] }

/-- Claim C2: evaluation at the failing input. When the addressed row does not exist,
the update-metadata handler returns without ever invoking its callback (response none),
while update-state, machine-update-metadata and machine-update-state do invoke the
callback with result error, as the claim requires of all four frames. -/
theorem C2_code_eval :
    (sessionUpdateMetadata "u" "s1" "m" 1 emptyDB emptyDB).2.1 = none
  ∧ (sessionUpdateState "u" "s1" (some "m") 1 emptyDB emptyDB).2.1 = some .error
  ∧ (machineUpdateMetadata "u" "m1" "m" 1 emptyDB emptyDB).2.1 = some .error
  ∧ (machineUpdateState "u" "m1" "m" 1 0 emptyDB emptyDB).2.1 = some .error := by
  refine ⟨by decide, by decide, by decide, by decide⟩

/-- Fixture for the duplicate-message scenario: one account at seq 0 and one owned
session. -/
def dupDb : DB :=
  { accounts := [{ id := "u", publicKey := "pk", seq := 0 }],
    sessions := [{ id := "s1", accountId := "u", tag := "t", seq := 0, metadata := "m",
                   metadataVersion := 1, agentState := none, agentStateVersion := 0,
                   dataEncryptionKey := none, active := false, lastActiveAt := 0 }],
    messages := [], machines := [], authRequests := [] }

/-- First send of localId L. -/
def dupRun1 : DB × List Emit := onMessage "u" "s1" "x" (some "L") 7 dupDb

/-- Second send of the same localId L (the duplicate). -/
def dupRun2 : DB × List Emit := onMessage "u" "s1" "x" (some "L") 7 dupRun1.1

/-- Third send with a fresh localId M. -/
def dupRun3 : DB × List Emit := onMessage "u" "s1" "y" (some "M") 7 dupRun2.1

/-- The update the first send must hand to the router: account seq 1, message seq 1. -/
def dupEmit1 : Emit :=
  { userId := "u"
    payload := .update 1 (.newMessage "s1" 1 { t := "encrypted", c := "x" } (some "L"))
    recipientFilter := .allInterestedInSession "s1"
    skipSenderConnection := some 7 }

/-- The update the third send must hand to the router: account seq 3, message seq 3. -/
def dupEmit3 : Emit :=
  { userId := "u"
    payload := .update 3 (.newMessage "s1" 3 { t := "encrypted", c := "y" } (some "M"))
    recipientFilter := .allInterestedInSession "s1"
    skipSenderConnection := some 7 }

/-- Claim C4: evaluation at the failing input. The first send emits the update with
account seq 1; the duplicate second send emits nothing yet leaves the account counter
at 2 (it allocated the seq before the duplicate check); the third send therefore emits
account seq 3: the emitted seq sequence 1, 3 has a gap at 2. Exactly one message row
for localId L is persisted. -/
theorem C4_code_eval :
    dupRun1.2 = [dupEmit1]
  ∧ dupRun2.2 = []
  ∧ (accountFind dupRun2.1 "u").map (fun a => a.seq) = some 2
  ∧ dupRun3.2 = [dupEmit3]
  ∧ countWhere (fun m => m.sessionId == "s1" && m.localId == some "L") dupRun3.1.messages
      = 1 := by
  refine ⟨by decide, by decide, by decide, by decide, by decide⟩

/-- Claim C9: for every rpc-call frame with a well-formed method name, a method with
no current registration or whose registered socket is disconnected yields exactly the
callback ok false, error "RPC method not available"; a method registered to the
caller's own socket yields exactly the callback ok false, error "Cannot call RPC on
the same socket"; in all these cases no rpc-request is forwarded. -/
theorem C9_thm (socketId : Nat) (method : String) (listeners : List (String × Nat))
    (connected : List Nat) (hm : method ≠ "") :
    ((lookupMethod listeners method = none ∨
        (∃ t, lookupMethod listeners method = some t ∧ t ∉ connected)) →
      rpcCall socketId method listeners connected
        = .reply false (some "RPC method not available"))
  ∧ (∀ t, lookupMethod listeners method = some t → t ∈ connected →
      t = socketId →
      rpcCall socketId method listeners connected
        = .reply false (some "Cannot call RPC on the same socket"))
  ∧ (∀ t2, (lookupMethod listeners method = none ∨
        (∃ t, lookupMethod listeners method = some t ∧
          (t ∉ connected ∨ t = socketId))) →
      rpcCall socketId method listeners connected ≠ .forwarded t2) := by
  refine ⟨?_, ?_, ?_⟩
  · rintro (hnone | ⟨t, ht, hconn⟩)
    · simp [rpcCall, if_neg hm, hnone]
    · simp [rpcCall, if_neg hm, ht, hconn]
  · intro t ht hconn hself
    subst hself
    simp [rpcCall, if_neg hm, ht, hconn]
  · rintro t2 (hnone | ⟨t, ht, (hconn | hself)⟩)
    · simp [rpcCall, if_neg hm, hnone]
    · simp [rpcCall, if_neg hm, ht, hconn]
    · subst hself
      by_cases hconn : t ∈ connected
      · simp [rpcCall, if_neg hm, ht, hconn]
      · simp [rpcCall, if_neg hm, ht, hconn]

/-- Claim C9 witness: a registry where "f" points to disconnected socket 3, "g" is
unregistered, and "h" points to the caller itself. -/
theorem C9_witness :
    rpcCall 5 "f" [("f", 3), ("h", 5)] [5]
        = .reply false (some "RPC method not available")
  ∧ rpcCall 5 "g" [("f", 3), ("h", 5)] [5]
        = .reply false (some "RPC method not available")
  ∧ rpcCall 5 "h" [("f", 3), ("h", 5)] [5]
        = .reply false (some "Cannot call RPC on the same socket")
  ∧ rpcCall 5 "h" [("f", 3), ("h", 5)] [5] ≠ .forwarded 5 := by
  refine ⟨?_, ?_, ?_, ?_⟩
  · exact (C9_thm 5 "f" [("f", 3), ("h", 5)] [5] (by decide)).1
      (Or.inr ⟨3, by decide, by decide⟩)
  · exact (C9_thm 5 "g" [("f", 3), ("h", 5)] [5] (by decide)).1 (Or.inl (by decide))
  · exact (C9_thm 5 "h" [("f", 3), ("h", 5)] [5] (by decide)).2.1 5 (by decide)
      (by decide) rfl
  · exact (C9_thm 5 "h" [("f", 3), ("h", 5)] [5] (by decide)).2.2 5
      (Or.inr ⟨5, by decide, Or.inr rfl⟩)

/-- Claim C10: an accepted machine-update-state write rewrites exactly the rows
matching the conditional where-clause, setting daemonState, daemonStateVersion to
expectedVersion + 1, active to true and lastActiveAt to the current time, and nothing
else; an accepted machine-update-metadata write sets only metadata and
metadataVersion, leaving daemonState, daemonStateVersion, active and lastActiveAt
unchanged. Rows not matching the where-clause are never changed by either handler. -/
theorem machineUpdateState_machines (uid mid ds : String) (e : Nat) (now : Int)
    (dbR dbW : DB) :
    (machineUpdateState uid mid ds e now dbR dbW).1.machines = dbW.machines ∨
    (machineUpdateState uid mid ds e now dbR dbW).1.machines
      = updateWhere (fun x => x.accountId == uid && x.id == mid && x.daemonStateVersion == e)
          (fun x => { x with daemonState := some ds, daemonStateVersion := e + 1,
                             active := true, lastActiveAt := now }) dbW.machines := by
  simp only [machineUpdateState]
  split
  · exact Or.inl rfl
  split
  · exact Or.inl rfl
  split
  · exact Or.inl rfl
  split
  · split
    · exact Or.inr rfl
    · exact Or.inr rfl
  · split
    · exact Or.inr rfl
    · rename_i r hr
      refine Or.inr ?_
      rw [allocateUserSeq_some hr]
      rfl

theorem machineUpdateMetadata_machines (uid mid md : String) (e : Nat) (dbR dbW : DB) :
    (machineUpdateMetadata uid mid md e dbR dbW).1.machines = dbW.machines ∨
    (machineUpdateMetadata uid mid md e dbR dbW).1.machines
      = updateWhere (fun x => x.accountId == uid && x.id == mid && x.metadataVersion == e)
          (fun x => { x with metadata := md, metadataVersion := e + 1 }) dbW.machines := by
  simp only [machineUpdateMetadata]
  split
  · exact Or.inl rfl
  split
  · exact Or.inl rfl
  split
  · exact Or.inl rfl
  split
  · split
    · exact Or.inr rfl
    · exact Or.inr rfl
  · split
    · exact Or.inr rfl
    · rename_i r hr
      refine Or.inr ?_
      rw [allocateUserSeq_some hr]
      rfl

theorem C10_thm (uid mid md ds : String) (e : Nat) (now : Int) (dbR dbW : DB) :
    (∀ x ∈ (machineUpdateState uid mid ds e now dbR dbW).1.machines,
        x ∈ dbW.machines ∨
        ∃ y ∈ dbW.machines, y.accountId = uid ∧ y.id = mid ∧ y.daemonStateVersion = e ∧
          x = { y with daemonState := some ds, daemonStateVersion := e + 1,
                       active := true, lastActiveAt := now })
  ∧ (∀ x ∈ (machineUpdateMetadata uid mid md e dbR dbW).1.machines,
        x ∈ dbW.machines ∨
        ∃ y ∈ dbW.machines, y.accountId = uid ∧ y.id = mid ∧ y.metadataVersion = e ∧
          x = { y with metadata := md, metadataVersion := e + 1 }) := by
  constructor
  · intro x hx
    rcases machineUpdateState_machines uid mid ds e now dbR dbW with hmach | hmach
    · rw [hmach] at hx
      exact Or.inl hx
    · rw [hmach] at hx
      rcases mem_updateWhere hx with ⟨y, hy, _, rfl⟩ | ⟨y, hy, hp, rfl⟩
      · exact Or.inl hy
      · simp only [Bool.and_eq_true, beq_iff_eq] at hp
        exact Or.inr ⟨y, hy, hp.1.1, hp.1.2, hp.2, rfl⟩
  · intro x hx
    rcases machineUpdateMetadata_machines uid mid md e dbR dbW with hmach | hmach
    · rw [hmach] at hx
      exact Or.inl hx
    · rw [hmach] at hx
      rcases mem_updateWhere hx with ⟨y, hy, _, rfl⟩ | ⟨y, hy, hp, rfl⟩
      · exact Or.inl hy
      · simp only [Bool.and_eq_true, beq_iff_eq] at hp
        exact Or.inr ⟨y, hy, hp.1.1, hp.1.2, hp.2, rfl⟩

/-- Claim C10 witness: the frame effects evaluated on the race fixture's machine row
for an accepted state write and an accepted metadata write. -/
theorem C10_witness :
    (∀ x ∈ (machineUpdateState "u" "m1" "d" 0 5 raceDbRead raceDbRead).1.machines,
        x ∈ raceDbRead.machines ∨
        ∃ y ∈ raceDbRead.machines, y.accountId = "u" ∧ y.id = "m1" ∧
          y.daemonStateVersion = 0 ∧
          x = { y with daemonState := some "d", daemonStateVersion := 1,
                       active := true, lastActiveAt := 5 })
  ∧ (∀ x ∈ (machineUpdateMetadata "u" "m1" "n" 1 raceDbRead raceDbRead).1.machines,
        x ∈ raceDbRead.machines ∨
        ∃ y ∈ raceDbRead.machines, y.accountId = "u" ∧ y.id = "m1" ∧
          y.metadataVersion = 1 ∧
          x = { y with metadata := "n", metadataVersion := 2 }) :=
  ⟨(C10_thm "u" "m1" "n" "d" 0 5 raceDbRead raceDbRead).1,
   (C10_thm "u" "m1" "n" "d" 1 5 raceDbRead raceDbRead).2⟩

/-- The user-scoped activity ephemeral emitted by session-alive and session-end. -/
def activityEmit (uid sid : String) (active : Bool) (activeAt : Int) (thinking : Bool) :
    Emit :=
  { userId := uid, payload := .ephemeral (.activity sid active activeAt thinking),
    recipientFilter := .userScopedOnly, skipSenderConnection := none }

/-- The user-scoped machine-activity ephemeral emitted by machine-alive. -/
def machineActivityEmit (uid mid : String) (active : Bool) (activeAt : Int) : Emit :=
  { userId := uid, payload := .ephemeral (.machineActivity mid active activeAt),
    recipientFilter := .userScopedOnly, skipSenderConnection := none }

/-- Claim C7: a session-alive, session-end or machine-alive frame whose time is older
than ten minutes before now changes no state and emits no ephemeral; a frame whose
time lies in the future is clamped to now, so the stored lastActiveAt and the emitted
activeAt both equal now (for the rows the handlers actually touch). -/
theorem C7_thm (uid sid mid : String) (time now : Int) (thinking : Bool) (db : DB) :
    (time < now - 1000 * 60 * 10 →
        sessionAlive uid sid time thinking now db = (db, [])
      ∧ sessionEnd uid sid time now db = (db, [])
      ∧ machineAlive uid mid time now db = (db, []))
  ∧ (time > now →
        (∀ s, sessionFindUnique db sid uid = some s → sid ≠ "" →
            (∀ x ∈ (sessionAlive uid sid time thinking now db).1.sessions,
                x.id = sid → x.lastActiveAt = now ∧ x.active = true)
          ∧ (sessionAlive uid sid time thinking now db).2
              = [activityEmit uid sid true now thinking])
      ∧ (∀ s, sessionFindUnique db sid uid = some s →
            (∀ x ∈ (sessionEnd uid sid time now db).1.sessions,
                x.id = sid → x.lastActiveAt = now ∧ x.active = false)
          ∧ (sessionEnd uid sid time now db).2 = [activityEmit uid sid false now false])
      ∧ (∀ m, machineFindFirst db uid mid = some m → mid ≠ "" →
            (∀ x ∈ (machineAlive uid mid time now db).1.machines,
                x.id = mid → x.lastActiveAt = now ∧ x.active = true)
          ∧ (machineAlive uid mid time now db).2
              = [machineActivityEmit uid mid true now])) := by
  constructor
  · intro h
    have hnotgt : ¬ time > now := by omega
    refine ⟨?_, ?_, ?_⟩
    · by_cases hsid : sid = ""
      · simp [sessionAlive, hsid]
      · simp only [sessionAlive, if_neg hsid]
        rw [if_neg hnotgt, if_pos h]
    · simp only [sessionEnd]
      rw [if_neg hnotgt, if_pos h]
    · by_cases hmid : mid = ""
      · simp [machineAlive, hmid]
      · simp only [machineAlive, if_neg hmid]
        rw [if_neg hnotgt, if_pos h]
  · intro h
    have hnotold : ¬ now < now - 1000 * 60 * 10 := by omega
    refine ⟨?_, ?_, ?_⟩
    · intro s hs hsid
      simp only [sessionAlive, if_neg hsid]
      rw [if_pos h, if_neg hnotold]
      simp only [hs]
      constructor
      · intro x hx hid
        rcases mem_updateWhere hx with ⟨y, hy, hpf, rfl⟩ | ⟨y, hy, hpt, rfl⟩
        · rw [hid] at hpf
          simp at hpf
        · exact ⟨rfl, rfl⟩
      · rfl
    · intro s hs
      simp only [sessionEnd]
      rw [if_pos h, if_neg hnotold]
      simp only [hs]
      constructor
      · intro x hx hid
        rcases mem_updateWhere hx with ⟨y, hy, hpf, rfl⟩ | ⟨y, hy, hpt, rfl⟩
        · rw [hid] at hpf
          simp at hpf
        · exact ⟨rfl, rfl⟩
      · rfl
    · intro m hm hmid
      simp only [machineAlive, if_neg hmid]
      rw [if_pos h, if_neg hnotold]
      simp only [hm]
      constructor
      · intro x hx hid
        rcases mem_updateWhere hx with ⟨y, hy, hpf, rfl⟩ | ⟨y, hy, hpt, rfl⟩
        · rw [hid] at hpf
          simp at hpf
        · exact ⟨rfl, rfl⟩
      · rfl

/-- Claim C7 witness: at now = 10000000 an old heartbeat (time 0) is a no-op on the
duplicate fixture store; a future heartbeat (time 10000005) on the race fixture
stores and emits activeAt = now. -/
theorem C7_witness :
    sessionAlive "u" "s1" 0 false 10000000 dupDb = (dupDb, [])
  ∧ (sessionAlive "u" "s1" 10000005 true 10000000 raceDbRead).2
      = [activityEmit "u" "s1" true 10000000 true] := by
  constructor
  · exact ((C7_thm "u" "s1" "m1" 0 10000000 false dupDb).1 (by decide)).1
  · exact (((C7_thm "u" "s1" "m1" 10000005 10000000 true raceDbRead).2 (by decide)).1
      raceSessionRead (by decide) (by decide)).2

/-- The sessions table after update-metadata is the input table or its conditional
update, nothing else. -/
theorem sessionUpdateMetadata_sessions (uid sid md : String) (e : Nat) (dbR dbW : DB) :
    (sessionUpdateMetadata uid sid md e dbR dbW).1.sessions = dbW.sessions ∨
    (sessionUpdateMetadata uid sid md e dbR dbW).1.sessions
      = updateWhere (fun x => x.id == sid && x.metadataVersion == e)
          (fun x => { x with metadata := md, metadataVersion := e + 1 }) dbW.sessions := by
  simp only [sessionUpdateMetadata]
  split
  · exact Or.inl rfl
  split
  · exact Or.inl rfl
  split
  · exact Or.inl rfl
  split
  · exact Or.inr rfl
  · split
    · exact Or.inr rfl
    · rename_i r hr
      refine Or.inr ?_
      rw [allocateUserSeq_some hr]
      rfl

/-- A success callback from update-metadata can only carry expectedVersion + 1 and
the new metadata, can only happen when the conditional write matched at least one
row, and leaves the sessions table equal to the conditional update. -/
theorem sessionUpdateMetadata_success (uid sid md : String) (e : Nat) (dbR dbW : DB)
    (v : Nat) (mv : Option String)
    (h : (sessionUpdateMetadata uid sid md e dbR dbW).2.1 = some (.success v mv)) :
    v = e + 1 ∧ mv = some md
    ∧ countWhere (fun x => x.id == sid && x.metadataVersion == e) dbW.sessions ≠ 0
    ∧ (sessionUpdateMetadata uid sid md e dbR dbW).1.sessions
        = updateWhere (fun x => x.id == sid && x.metadataVersion == e)
            (fun x => { x with metadata := md, metadataVersion := e + 1 }) dbW.sessions := by
  revert h
  simp only [sessionUpdateMetadata]
  split
  · intro h; cases h
  split
  · intro h; cases h
  split
  · intro h
    simp at h
  split
  · intro h
    simp at h
  · rename_i hcount
    split
    · intro h
      simp at h
    · rename_i r hr
      intro h
      simp only [Option.some.injEq, OCUResult.success.injEq] at h
      refine ⟨h.1.symm, h.2.symm, hcount, ?_⟩
      rw [allocateUserSeq_some hr]
      rfl

/-- Claim C5: update-metadata never writes any metadataVersion other than
expectedVersion + 1; an accepted call (success callback) reports exactly
expectedVersion + 1 with the new metadata, and leaves the stored row for the
addressed session at metadataVersion = expectedVersion + 1 with the new metadata
(ids are unique in the store, as the schema's primary key guarantees). -/
theorem C5_thm (uid sid md : String) (e : Nat) (dbR dbW : DB)
    (hwf : dbW.sessions.Pairwise fun a b => a.id ≠ b.id) :
    (∀ x ∈ (sessionUpdateMetadata uid sid md e dbR dbW).1.sessions,
        x ∈ dbW.sessions ∨ (x.metadataVersion = e + 1 ∧ x.metadata = md))
  ∧ (∀ (v : Nat) (mv : Option String),
        (sessionUpdateMetadata uid sid md e dbR dbW).2.1 = some (.success v mv) →
        v = e + 1 ∧ mv = some md)
  ∧ ((sessionUpdateMetadata uid sid md e dbR dbW).2.1
        = some (.success (e + 1) (some md)) →
      ∀ x ∈ (sessionUpdateMetadata uid sid md e dbR dbW).1.sessions,
        x.id = sid → x.metadataVersion = e + 1 ∧ x.metadata = md) := by
  refine ⟨?_, ?_, ?_⟩
  · intro x hx
    rcases sessionUpdateMetadata_sessions uid sid md e dbR dbW with hss | hss
    · rw [hss] at hx
      exact Or.inl hx
    · rw [hss] at hx
      rcases mem_updateWhere hx with ⟨y, hy, _, rfl⟩ | ⟨y, hy, hpt, rfl⟩
      · exact Or.inl hy
      · exact Or.inr ⟨rfl, rfl⟩
  · intro v mv h
    exact ⟨(sessionUpdateMetadata_success uid sid md e dbR dbW v mv h).1,
      (sessionUpdateMetadata_success uid sid md e dbR dbW v mv h).2.1⟩
  · intro h x hx hid
    rcases sessionUpdateMetadata_success uid sid md e dbR dbW (e + 1) (some md) h
      with ⟨-, -, hcount, hss⟩
    rcases exists_true_of_countWhere_ne_zero hcount with ⟨y0, hy0, hp0⟩
    simp only [Bool.and_eq_true, beq_iff_eq] at hp0
    rw [hss] at hx
    rcases mem_updateWhere hx with ⟨y, hy, hpf, rfl⟩ | ⟨y, hy, hpt, rfl⟩
    · have hxy0 : x = y0 :=
        mem_eq_of_pairwise_key (k := Session.id) hwf hy hy0 (by rw [hid, hp0.1])
      rw [hxy0] at hpf
      rw [show (y0.id == sid && y0.metadataVersion == e) = true by
        simp [hp0.1, hp0.2]] at hpf
      cases hpf
    · exact ⟨rfl, rfl⟩

/-- Claim C5 witness: an accepted update on the race fixture with expectedVersion 1
reports version 2 and stores version 2 with the new metadata. -/
theorem C5_witness :
    (∀ x ∈ (sessionUpdateMetadata "u" "s1" "new" 1 raceDbRead raceDbRead).1.sessions,
        x ∈ raceDbRead.sessions ∨ (x.metadataVersion = 2 ∧ x.metadata = "new"))
  ∧ ((sessionUpdateMetadata "u" "s1" "new" 1 raceDbRead raceDbRead).2.1
        = some (.success 2 (some "new")) →
      ∀ x ∈ (sessionUpdateMetadata "u" "s1" "new" 1 raceDbRead raceDbRead).1.sessions,
        x.id = "s1" → x.metadataVersion = 2 ∧ x.metadata = "new") :=
  ⟨(C5_thm "u" "s1" "new" 1 raceDbRead raceDbRead (by decide)).1,
   (C5_thm "u" "s1" "new" 1 raceDbRead raceDbRead (by decide)).2.2⟩

/-- Fixture for session creation: one account, no sessions. -/
def createDb : DB :=
  { accounts := [{ id := "u", publicKey := "pk", seq := 0 }],
    sessions := [], messages := [], machines := [], authRequests := [] }

/-- Claim C3, counterexample: a POST /v1/sessions body carrying a non-null agentState
produces a session with agentStateVersion 0 and agentState null, not
agentStateVersion 1 with the body's agentState: the route never reads the body's
agentState field. -/
theorem C3_counterexample :
    ((postSessions "u" "t" "m" (some "S") none "sid1" createDb).2.1).map
        (fun s => (s.agentStateVersion, s.agentState)) = some (0, none)
  ∧ ¬ (((postSessions "u" "t" "m" (some "S") none "sid1" createDb).2.1).map
        (fun s => s.agentStateVersion) = some 1) := by
  refine ⟨by decide, by decide⟩

/-- Claim C3 (amended): if a session with (accountId, tag) exists it is returned
unchanged, with no store change and no emission; otherwise (for an authenticated
user, whose account row exists) a session is created with metadataVersion 1 and, the
body's agentState being ignored, agentState null and agentStateVersion 0 regardless
of the request, appended to the otherwise unchanged sessions table, and exactly one
new-session update carrying the freshly allocated account seq is emitted whose
user-scoped-only filter delivers to user-scoped connections only. -/
theorem C3_amended_thm :
    (∀ (uid tag md : String) (ast dek : Option String) (newId : String) (db : DB)
        (s : Session), sessionFindByTag db uid tag = some s →
        postSessions uid tag md ast dek newId db = (db, some s, []))
  ∧ (∀ (uid tag md : String) (ast dek : Option String) (newId : String) (db : DB)
        (a : Account), sessionFindByTag db uid tag = none →
        accountFind db uid = some a →
        (postSessions uid tag md ast dek newId db).2.1
            = some (sessionCreateRow uid tag md dek newId)
      ∧ (sessionCreateRow uid tag md dek newId).metadataVersion = 1
      ∧ (sessionCreateRow uid tag md dek newId).agentStateVersion = 0
      ∧ (sessionCreateRow uid tag md dek newId).agentState = none
      ∧ (postSessions uid tag md ast dek newId db).1.sessions
          = db.sessions ++ [sessionCreateRow uid tag md dek newId]
      ∧ (postSessions uid tag md ast dek newId db).2.2
          = [{ userId := uid, payload := .update (a.seq + 1) (.newSession newId),
               recipientFilter := .userScopedOnly, skipSenderConnection := none }]
      ∧ ∀ (em : Emit), em ∈ (postSessions uid tag md ast dek newId db).2.2 →
          ∀ (conns : List Connection) (c : Connection),
            c ∈ deliverTo conns em → c.connectionType = .userScoped) := by
  constructor
  · intro uid tag md ast dek newId db s hfind
    simp [postSessions, hfind]
  · intro uid tag md ast dek newId db a hfind ha
    have hall : allocateUserSeq db uid = some (bumpAccountSeq db uid, a.seq + 1) := by
      simp [allocateUserSeq, ha]
    refine ⟨?_, rfl, rfl, rfl, ?_, ?_, ?_⟩
    · simp [postSessions, hfind, hall]
    · simp [postSessions, hfind, hall, bumpAccountSeq]
    · simp [postSessions, hfind, hall]
    · intro em hem conns c hc
      simp only [postSessions, hfind, hall, List.mem_singleton] at hem
      subst hem
      simp only [deliverTo, List.mem_filter] at hc
      rcases hc with ⟨-, hmatch⟩
      rw [Bool.and_eq_true] at hmatch
      cases hct : c.connectionType with
      | userScoped => rfl
      | sessionScoped s2 =>
        rw [hct] at hmatch
        cases hmatch.2
      | machineScoped m2 =>
        rw [hct] at hmatch
        cases hmatch.2

/-- Claim C3 witness: the amended theorem applied to the creation fixture (fresh tag)
and to the store that results from it (existing tag, idempotent). -/
theorem C3_amended_witness :
    (postSessions "u" "t" "m" (some "S") none "sid1" createDb).2.1
        = some (sessionCreateRow "u" "t" "m" none "sid1")
  ∧ (sessionCreateRow "u" "t" "m" none "sid1").agentStateVersion = 0
  ∧ postSessions "u" "t" "m2" none none "sid2"
        (postSessions "u" "t" "m" (some "S") none "sid1" createDb).1
      = ((postSessions "u" "t" "m" (some "S") none "sid1" createDb).1,
         some (sessionCreateRow "u" "t" "m" none "sid1"), []) := by
  refine ⟨?_, ?_, ?_⟩
  · exact (C3_amended_thm.2 "u" "t" "m" (some "S") none "sid1" createDb
      { id := "u", publicKey := "pk", seq := 0 } (by decide) (by decide)).1
  · exact (C3_amended_thm.2 "u" "t" "m" (some "S") none "sid1" createDb
      { id := "u", publicKey := "pk", seq := 0 } (by decide) (by decide)).2.2.1
  · exact C3_amended_thm.1 "u" "t" "m2" none none "sid2"
      (postSessions "u" "t" "m" (some "S") none "sid1" createDb).1
      (sessionCreateRow "u" "t" "m" none "sid1") (by decide)

/-- Pairing fixture: a fresh pairing request for key "pk". -/
def pairDb : DB :=
  { accounts := [], sessions := [], messages := [], machines := [],
    authRequests := [{ id := "r1", publicKey := "pk", response := none,
                       responseAccountId := none }] }

/-- The store after an authenticated client responds with the empty string. -/
def pairDb1 : DB := (postAccountResponse "acc1" 32 "pk" "" pairDb).1

/-- The store after a second response call with "R" from another account. -/
def pairDb2 : DB := (postAccountResponse "acc2" 32 "pk" "R" pairDb1).1

/-- Claim C8, counterexample: a first response call writes response "" and
responseAccountId acc1; a second response call for the same publicKey then overwrites
both to "R" and acc2 (the stored response changed after it was set, so the request
transitioned twice), and while response "" and responseAccountId acc1 are both set the
poll still answers requested, not authorized. -/
theorem C8_counterexample :
    (authRequestFind pairDb1 "pk").map (fun r => (r.response, r.responseAccountId))
        = some (some "", some "acc1")
  ∧ (postAccountRequest 32 "pk" "n1" pairDb1).2 = .requested
  ∧ (authRequestFind pairDb2 "pk").map (fun r => (r.response, r.responseAccountId))
        = some (some "R", some "acc2") := by
  refine ⟨by decide, by decide, by decide⟩

/-- Claim C8 (amended): the response route writes response and responseAccountId only
while the stored response is unset or the empty string; once a non-empty response is
stored, every further response call leaves the row unchanged and still replies
success; and once a non-empty response and a non-empty responseAccountId are both
stored, every poll returns authorized with a token bound to responseAccountId and the
stored response. -/
theorem C8_amended_thm :
    (∀ (acc pkHex resp : String) (db : DB) (ar : AccountAuthRequest),
        authRequestFind db pkHex = some ar → jsTruthyStr ar.response = true →
        postAccountResponse acc 32 pkHex resp db = (db, .success))
  ∧ (∀ (acc pkHex resp : String) (db : DB) (ar : AccountAuthRequest),
        authRequestFind db pkHex = some ar → jsTruthyStr ar.response = false →
        (postAccountResponse acc 32 pkHex resp db).2 = .success
      ∧ ∀ x ∈ (postAccountResponse acc 32 pkHex resp db).1.authRequests,
          x.id = ar.id → x.response = some resp ∧ x.responseAccountId = some acc)
  ∧ (∀ (pkHex newId r aid : String) (db : DB) (ar : AccountAuthRequest),
        authRequestFind db pkHex = some ar → ar.response = some r → r ≠ "" →
        ar.responseAccountId = some aid → aid ≠ "" →
        postAccountRequest 32 pkHex newId db = (db, .authorized (createToken aid) r)) := by
  refine ⟨?_, ?_, ?_⟩
  · intro acc pkHex resp db ar hfind htruthy
    simp [postAccountResponse, hfind, htruthy]
  · intro acc pkHex resp db ar hfind htruthy
    constructor
    · simp [postAccountResponse, hfind, htruthy]
    · intro x hx hid
      simp [postAccountResponse, hfind, htruthy] at hx
      rcases mem_updateWhere hx with ⟨y, hy, hpf, rfl⟩ | ⟨y, hy, hpt, rfl⟩
      · rw [hid] at hpf
        simp at hpf
      · exact ⟨rfl, rfl⟩
  · intro pkHex newId r aid db ar hfind hr hrne haid haidne
    simp [postAccountRequest, hfind, jsTruthyStr, hr, haid, hrne, haidne]

/-- Claim C8 witness: the amended theorem applied to the pairing fixture after a
non-empty response "R" is stored: further response calls leave it unchanged and the
poll is authorized for the responder with a token bound to acc2. -/
theorem C8_witness :
    postAccountResponse "acc9" 32 "pk" "Z" pairDb2 = (pairDb2, .success)
  ∧ postAccountRequest 32 "pk" "n2" pairDb2
      = (pairDb2, .authorized (createToken "acc2") "R") := by
  constructor
  · exact C8_amended_thm.1 "acc9" "pk" "Z" pairDb2
      { id := "r1", publicKey := "pk", response := some "R", responseAccountId := some "acc2" }
      (by decide) (by decide)
  · exact C8_amended_thm.2.2 "pk" "n2" "R" "acc2" pairDb2
      { id := "r1", publicKey := "pk", response := some "R", responseAccountId := some "acc2" }
      (by decide) (by decide) (by decide) (by decide) (by decide)

/-- The row the first accepted send of a localId-carrying message inserts; q is the
session seq allocateSessionSeq returned for it. -/
def insertedMessage (sid msgText l : String) (q : Nat) : SessionMessage :=
  { sessionId := sid, seq := q, content := { t := "encrypted", c := msgText },
    localId := some l }

/-- Claim C6: sending the message frame twice with the same (sessionId, localId),
localId non-null, from an authenticated user (account row present) persists exactly
one SessionMessage row: the second send inserts nothing (the messages table is
unchanged) and emits no new-message update. -/
theorem C6_thm (uid sid msgText l : String) (conn : Nat) (db : DB) (s : Session)
    (a : Account) (ha : accountFind db uid = some a)
    (hs : sessionFindUnique db sid uid = some s)
    (hdup : countWhere (fun m => m.sessionId == sid && m.localId == some l)
      db.messages = 0) :
    (onMessage uid sid msgText (some l) conn
        (onMessage uid sid msgText (some l) conn db).1).1.messages
      = (onMessage uid sid msgText (some l) conn db).1.messages
  ∧ (onMessage uid sid msgText (some l) conn
        (onMessage uid sid msgText (some l) conn db).1).2 = []
  ∧ countWhere (fun m => m.sessionId == sid && m.localId == some l)
      (onMessage uid sid msgText (some l) conn
        (onMessage uid sid msgText (some l) conn db).1).1.messages = 1 := by
  have hdupFind : List.find? (fun m => m.sessionId == sid && m.localId == some l)
      db.messages = none := by
    apply List.find?_eq_none.mpr
    intro x hx
    simp [countWhere_eq_zero hdup x hx]
  have hA1 : allocateUserSeq db uid = some (bumpAccountSeq db uid, a.seq + 1) := by
    simp [allocateUserSeq, ha]
  have hsF : List.find? (fun x => x.id == sid && x.accountId == uid) db.sessions
      = some s := hs
  have hid : (s.id == sid) = true := by
    have hps := List.find?_some hsF
    simp only [Bool.and_eq_true] at hps
    exact hps.1
  obtain ⟨s1, hs1⟩ :=
    exists_find?_eq_some_of_mem (p := fun x => x.id == sid)
      (List.mem_of_find?_eq_some hsF) hid
  have hA2 : allocateSessionSeq (bumpAccountSeq db uid) sid
      = some (bumpSessionSeq (bumpAccountSeq db uid) sid, s1.seq + 1) := by
    unfold allocateSessionSeq
    rw [show (bumpAccountSeq db uid).sessions = db.sessions from rfl, hs1]
  have hrun1 : onMessage uid sid msgText (some l) conn db
      = insertMessageAndEmit uid sid { t := "encrypted", c := msgText } (a.seq + 1)
          (s1.seq + 1) (some l) conn (bumpSessionSeq (bumpAccountSeq db uid) sid) := by
    simp only [onMessage, hs, hA1, hA2]
    rw [show messageFindFirst (bumpSessionSeq (bumpAccountSeq db uid) sid) sid l
        = List.find? (fun m => m.sessionId == sid && m.localId == some l) db.messages
        from rfl, hdupFind]
  have hm1 : (onMessage uid sid msgText (some l) conn db).1.messages
      = db.messages ++ [insertedMessage sid msgText l (s1.seq + 1)] := by
    rw [hrun1]
    rfl
  have hsess1 : (onMessage uid sid msgText (some l) conn db).1.sessions
      = (bumpSessionSeq (bumpAccountSeq db uid) sid).sessions := by
    rw [hrun1]
    rfl
  have haccs1 : (onMessage uid sid msgText (some l) conn db).1.accounts
      = (bumpAccountSeq db uid).accounts := by
    rw [hrun1]
    rfl
  set d1 := (onMessage uid sid msgText (some l) conn db).1 with hd1
  have hacc2 : (accountFind d1 uid).isSome = true := by
    have he : accountFind d1 uid = accountFind (bumpAccountSeq db uid) uid := by
      simp only [accountFind]
      rw [haccs1]
    rw [he, accountFind_bumpAccountSeq_isSome, ha]
    rfl
  obtain ⟨a2, ha2⟩ := Option.isSome_iff_exists.mp hacc2
  have hB1 : allocateUserSeq d1 uid = some (bumpAccountSeq d1 uid, a2.seq + 1) := by
    simp [allocateUserSeq, ha2]
  have hsome2 : (sessionFindUnique d1 sid uid).isSome = true := by
    have he : sessionFindUnique d1 sid uid
        = sessionFindUnique (bumpSessionSeq (bumpAccountSeq db uid) sid) sid uid := by
      simp only [sessionFindUnique]
      rw [hsess1]
    rw [he, sessionFindUnique_bumpSessionSeq_isSome,
      show sessionFindUnique (bumpAccountSeq db uid) sid uid
        = sessionFindUnique db sid uid from rfl, hs]
    rfl
  obtain ⟨s2, hs2⟩ := Option.isSome_iff_exists.mp hsome2
  have hsid2 : (List.find? (fun x => x.id == sid)
      (bumpAccountSeq d1 uid).sessions).isSome = true := by
    rw [show (bumpAccountSeq d1 uid).sessions = d1.sessions from rfl, hsess1,
      find?_id_bumpSessionSeq_isSome,
      show (bumpAccountSeq db uid).sessions = db.sessions from rfl, hs1]
    rfl
  obtain ⟨s3, hs3⟩ := Option.isSome_iff_exists.mp hsid2
  have hB2 : allocateSessionSeq (bumpAccountSeq d1 uid) sid
      = some (bumpSessionSeq (bumpAccountSeq d1 uid) sid, s3.seq + 1) := by
    unfold allocateSessionSeq
    rw [hs3]
  have hfind2 : List.find? (fun m => m.sessionId == sid && m.localId == some l)
      d1.messages = some (insertedMessage sid msgText l (s1.seq + 1)) := by
    rw [hm1, find?_append, hdupFind]
    simp [insertedMessage]
  have hrun2 : onMessage uid sid msgText (some l) conn d1
      = (bumpSessionSeq (bumpAccountSeq d1 uid) sid, []) := by
    simp only [onMessage, hs2, hB1, hB2]
    rw [show messageFindFirst (bumpSessionSeq (bumpAccountSeq d1 uid) sid) sid l
        = List.find? (fun m => m.sessionId == sid && m.localId == some l) d1.messages
        from rfl, hfind2]
  refine ⟨?_, ?_, ?_⟩
  · rw [hrun2]
    rfl
  · rw [hrun2]
  · rw [hrun2,
      show (bumpSessionSeq (bumpAccountSeq d1 uid) sid, ([] : List Emit)).1.messages
        = d1.messages from rfl,
      hm1, countWhere_append, hdup]
    simp [countWhere, insertedMessage]

/-- Claim C6 witness: the theorem applied to the duplicate fixture. -/
theorem C6_witness :
    (onMessage "u" "s1" "x" (some "L") 7 (onMessage "u" "s1" "x" (some "L") 7 dupDb).1).2
      = []
  ∧ countWhere (fun m => m.sessionId == "s1" && m.localId == some "L")
      (onMessage "u" "s1" "x" (some "L") 7
        (onMessage "u" "s1" "x" (some "L") 7 dupDb).1).1.messages = 1 := by
  have h := C6_thm "u" "s1" "x" "L" 7 dupDb
    { id := "s1", accountId := "u", tag := "t", seq := 0, metadata := "m",
      metadataVersion := 1, agentState := none, agentStateVersion := 0,
      dataEncryptionKey := none, active := false, lastActiveAt := 0 }
    { id := "u", publicKey := "pk", seq := 0 }
    (by decide) (by decide) (by decide)
  exact ⟨h.2.1, h.2.2⟩

end Consortium
